/-
  Verification of the IAction front-end controllers (src/static/admin.js,
  src/static/app.js) against their natural-language specification.

  The two files are browser glue code: an admin configuration controller
  (`AdminApp`) and a capture/detections controller (`IActionApp`).  We give a
  shallow embedding of the state and of the operations the specification's
  testable properties talk about.  DOM elements are modelled by the fields of
  explicit state records; network calls are modelled by passing the response
  (or `none` for a thrown / timed-out fetch) as an argument; `localStorage`
  is modelled by passing the stored value explicitly.  Every definition is
  annotated with the source function and line range it embeds.
-/
import Mathlib

namespace IAction

/-! ### JavaScript number parsing

`admin.js` validates numeric fields with `Number(...)` (whole-string parse,
line 221) and applies per-camera intervals with `parseFloat(...)` (longest
numeric prefix, line 1024).  The values manipulated here are short decimal
strings, so we model JavaScript numbers exactly by rationals; at these
magnitudes binary-double rounding cannot change any of the comparisons the
code performs. -/

/-- JavaScript `s.trim()`: strip whitespace from both ends (defined on the
character list so that concrete instances reduce in the kernel). -/
def jsTrim (s : String) : String :=
  ⟨((s.data.dropWhile Char.isWhitespace).reverse.dropWhile Char.isWhitespace).reverse⟩

/-- Numeric value of a list of decimal digit characters. -/
def natOfDigits (l : List Char) : Nat :=
  l.foldl (fun a c => 10 * a + (c.toNat - 48)) 0

/-- Value of the decimal `[-]int.frac` as a rational (built with `mkRat` so
that concrete values reduce in the kernel). -/
def decimalVal (neg : Bool) (intPart fracPart : List Char) : ℚ :=
  let num : Int := (natOfDigits intPart * 10 ^ fracPart.length + natOfDigits fracPart : Nat)
  mkRat (if neg then -num else num) (10 ^ fracPart.length)

/-- Unsigned-decimal core of `Number(...)`: the whole character list must be
`digits`, `digits.digits`, `.digits` or `digits.`; anything else is NaN
(`none`). -/
def jsNumberCore (neg : Bool) (cs : List Char) : Option ℚ :=
  let intPart := cs.takeWhile Char.isDigit
  let rest := cs.drop intPart.length
  match rest with
  | [] => if intPart.isEmpty then none else some (decimalVal neg intPart [])
  | '.' :: fs =>
      if fs.all Char.isDigit && (!intPart.isEmpty || !fs.isEmpty) then
        some (decimalVal neg intPart fs)
      else none
  | _ => none

/-- JavaScript `Number(s)` on the plain decimal strings occurring in this code
(no exponents, no hex): `""` is `0`, an optional leading minus sign, `none`
models NaN. -/
def jsNumber (s : String) : Option ℚ :=
  match s.data with
  | [] => some 0
  | '-' :: rest => jsNumberCore true rest
  | cs => jsNumberCore false cs

/-- JavaScript `parseFloat(s)`: skip leading whitespace, optional minus sign,
then the longest `digits[.digits]` prefix; NaN (`none`) when no digit is
found.  Trailing garbage — in particular everything from a `,` on — is
ignored. -/
def jsParseFloat (s : String) : Option ℚ :=
  let cs := s.data.dropWhile Char.isWhitespace
  let (neg, cs) := match cs with
    | '-' :: rest => (true, rest)
    | _ => (false, cs)
  let intPart := cs.takeWhile Char.isDigit
  let rest := cs.drop intPart.length
  let fracPart := match rest with
    | '.' :: fs => fs.takeWhile Char.isDigit
    | _ => []
  if intPart.isEmpty && fracPart.isEmpty then none
  else some (decimalVal neg intPart fracPart)

/-- Core of JavaScript `value.replace(",", ".")` (admin.js line 217): with a
string pattern, `replace` rewrites only the first occurrence. -/
def replaceFirstCommaList : List Char → List Char
  | [] => []
  | c :: rest => if c = ',' then '.' :: rest else c :: replaceFirstCommaList rest

/-- `value.replace(",", ".")` on strings. -/
def replaceFirstComma (s : String) : String :=
  ⟨replaceFirstCommaList s.data⟩

/-- One min/max bound check of `validateField` (admin.js lines 226-231):
`hasMin = field.min !== undefined && field.min !== ""`, and the comparison
`val < Number(field.min)` is `false` when `Number(field.min)` is NaN. -/
def boundViolated (v : ℚ) (attr : String) (isMin : Bool) : Bool :=
  if attr = "" then false
  else match jsNumber attr with
    | some b => if isMin then decide (v < b) else decide (v > b)
    | none => false

/-- The `field.type === "number"` branch of `AdminApp.validateField`
(admin.js lines 215-235), for a visible field: empty values are skipped
(valid); otherwise the value is trimmed, the first comma is normalized to a
period, parsed with `Number`, and checked against the `min`/`max`
attributes.  An absent attribute is modelled by `""` (its DOM value). -/
def validateNumberField (value minAttr maxAttr : String) : Bool :=
  if value = "" then true
  else
    let raw := replaceFirstComma (jsTrim value)
    match jsNumber raw with
    | none => false
    | some v =>
        if boundViolated v minAttr true || boundViolated v maxAttr false then false
        else true

/-- Outcome of `AdminApp.applyCameraInterval` (admin.js lines 1012-1032)
up to the network call: the analysis-interval input's value is read with
`parseFloat` — with NO comma normalization — and range-checked against
0.1-60; `posted v` means the flow continues and POSTs `v` to
`/api/camera/interval`. -/
inductive ApplyIntervalOutcome where
  | fieldMissing
  | rejected
  | posted (interval : ℚ)
deriving DecidableEq

/-- `AdminApp.applyCameraInterval` (admin.js lines 1012-1032): `none` input
models a missing interval field for the camera. -/
def applyCameraInterval (inputValue : Option String) : ApplyIntervalOutcome :=
  match inputValue with
  | none => .fieldMissing
  | some v =>
      match jsParseFloat v with
      | none => .rejected
      | some x => if x < mkRat 1 10 || x > mkRat 60 1 then .rejected else .posted x

/-- `replace(",", ".")` rewrites the (first) comma: normalization lemma used
by the amended C3. -/
theorem replaceFirstComma_append (a b : List Char) (ha : ',' ∉ a) :
    replaceFirstComma ⟨a ++ ',' :: b⟩ = ⟨a ++ '.' :: b⟩ := by
  unfold replaceFirstComma
  congr 1
  induction a with
  | nil => simp [replaceFirstCommaList]
  | cons c a ih =>
      have hc : ¬ c = ',' := fun h => ha (h ▸ List.mem_cons_self c a)
      have ha' : ',' ∉ a := fun h => ha (List.mem_cons_of_mem c h)
      simpa [replaceFirstCommaList, hc] using ih ha'

/-- C3 counterexample: the claim extends the comma-as-decimal-separator
normalization to `applyCameraInterval`, but that function applies
`parseFloat` to the raw value with no normalization: `parseFloat("1,5")`
stops at the comma and yields `1`, so `"1,5"` is accepted as the interval
`1`, not `1.5` — the two spellings of one and a half diverge. -/
theorem C3_comma_normalization_counterexample :
    applyCameraInterval (some "1,5") = .posted (mkRat 1 1) ∧
    applyCameraInterval (some "1.5") = .posted (mkRat 3 2) ∧
    ApplyIntervalOutcome.posted (mkRat 1 1) ≠ .posted (mkRat 3 2) := by
  refine ⟨by decide, by decide, by decide⟩

/-- C3 amended: in `validateField`'s number branch the comma IS normalized
to a period before range validation — the first comma of the trimmed value
is rewritten, so `"1,5"` is validated as `1.5` and passes the
analysis-interval field's 0.1-60 bound — but `applyCameraInterval` performs
no such normalization: it `parseFloat`s the raw value, so `"1,5"` is read
as `1` (still in range, but a different number). -/
theorem C3_comma_normalization :
    (∀ a b : List Char, ',' ∉ a →
        replaceFirstComma ⟨a ++ ',' :: b⟩ = ⟨a ++ '.' :: b⟩) ∧
    validateNumberField "1,5" "0.1" "60" = true ∧
    validateNumberField "1,5" "0.1" "60" = validateNumberField "1.5" "0.1" "60" ∧
    jsNumber (replaceFirstComma (jsTrim "1,5")) = some (mkRat 3 2) ∧
    applyCameraInterval (some "1,5") = .posted (mkRat 1 1) :=
  ⟨replaceFirstComma_append, by decide, by decide, by decide, by decide⟩

/-- Witness for the universally quantified part of C3's amended theorem at
the concrete split `"1" ++ "," ++ "5"`. -/
theorem C3_comma_normalization_witness :
    (',' ∉ ['1']) ∧ replaceFirstComma ⟨['1'] ++ ',' :: ['5']⟩ = ⟨['1'] ++ '.' :: ['5']⟩ :=
  ⟨by decide, C3_comma_normalization.1 ['1'] ['5'] (by decide)⟩

/-! ### Restart flow (admin.js)

`waitForServerBack` (admin.js lines 84-100) polls `/api/metrics` until it
answers with an ok response or 60 seconds have elapsed.  We model the
response behaviour of the endpoint by a function from the elapsed time (in
whole seconds) at which an attempt starts to `(duration, ok)`: the attempt
takes `duration` seconds (the 2-second fetch timeout bounds it in the real
code) and reports `ok`; a thrown fetch and a non-ok HTTP response are both
`ok = false`.  After a failed attempt the code sleeps 1 second, so the next
attempt starts at `t + duration + 1`. -/

/-- The `while ((Date.now() - start) / 1000 < maxSeconds)` loop of
`waitForServerBack`, started at elapsed time `t`. -/
def waitLoop (resp : Nat → Nat × Bool) (maxSeconds t : Nat) : Bool :=
  if h : t < maxSeconds then
    if (resp t).2 then true
    else waitLoop resp maxSeconds (t + (resp t).1 + 1)
  else false
termination_by maxSeconds - t
decreasing_by omega

/-- `AdminApp.waitForServerBack(maxSeconds)` (admin.js lines 84-100). -/
def waitForServerBack (resp : Nat → Nat × Bool) (maxSeconds : Nat) : Bool :=
  waitLoop resp maxSeconds 0

/-- Outcome of `AdminApp.restartApplication` (admin.js lines 421-460). -/
inductive RestartOutcome where
  | noAction      -- the confirm() dialog was declined
  | reloaded      -- health poll succeeded: success log + window.location.reload()
  | manualWarning -- health poll timed out: warn the user to reload manually
  | failed        -- POST threw or returned non-ok: caught, error logged
deriving DecidableEq

/-- Result of `restartApplication`: the outcome, plus the final disabled
state of the `restart-app` button (set in the `finally`, lines 456-459). -/
structure RestartResult where
  outcome : RestartOutcome
  btnDisabled : Bool
deriving DecidableEq

/-- `AdminApp.restartApplication` (admin.js lines 421-460).  `postResp` is
`none` when the POST to `/api/admin/restart` throws, otherwise
`some response.ok`; `health` is the health endpoint behaviour passed to
`waitForServerBack(60)`. -/
def restartApplication (confirmed : Bool) (postResp : Option Bool)
    (health : Nat → Nat × Bool) : RestartResult :=
  if !confirmed then { outcome := .noAction, btnDisabled := false }
  else
    match postResp with
    | none => { outcome := .failed, btnDisabled := false }
    | some ok =>
        if ok then
          if waitForServerBack health 60 then
            { outcome := .reloaded, btnDisabled := false }
          else
            { outcome := .manualWarning, btnDisabled := false }
        else { outcome := .failed, btnDisabled := false }

/-! Poll-loop lemmas for C1. -/

/-- If the health endpoint never answers ok within the window, the poll loop
returns `false` no matter how long each attempt takes. -/
theorem waitLoop_never_ok (resp : Nat → Nat × Bool) (maxS : Nat)
    (h : ∀ u, u < maxS → (resp u).2 = false) :
    ∀ t, waitLoop resp maxS t = false := by
  have key : ∀ n t, maxS - t ≤ n → waitLoop resp maxS t = false := by
    intro n
    induction n with
    | zero =>
        intro t ht
        rw [waitLoop]
        have : ¬ t < maxS := by omega
        simp [this]
    | succ n ih =>
        intro t ht
        rw [waitLoop]
        by_cases hlt : t < maxS
        · simp only [hlt, dite_true]
          rw [h t hlt]
          simp only [Bool.false_eq_true, if_false]
          exact ih _ (by omega)
        · simp [hlt]
  intro t
  exact key (maxS - t) t (le_refl _)

/-- If every attempt before second 59 fails instantly and the attempt made
at elapsed second 59 (the sixtieth polling second, still inside the
60-second window) answers ok, the poll loop returns `true`. -/
theorem waitLoop_ok_at_59 (resp : Nat → Nat × Bool)
    (hfail : ∀ u, u < 59 → resp u = (0, false))
    (hok : (resp 59).2 = true) :
    ∀ t, t ≤ 59 → waitLoop resp 60 t = true := by
  have key : ∀ n t, t ≤ 59 → 59 - t ≤ n → waitLoop resp 60 t = true := by
    intro n
    induction n with
    | zero =>
        intro t ht hn
        have : t = 59 := by omega
        subst this
        rw [waitLoop]
        simp [hok]
    | succ n ih =>
        intro t ht hn
        by_cases h59 : t = 59
        · subst h59
          rw [waitLoop]
          simp [hok]
        · have hlt : t < 59 := by omega
          rw [waitLoop]
          have h60 : t < 60 := by omega
          simp only [h60, dite_true]
          rw [hfail t hlt]
          simp only [Bool.false_eq_true, if_false]
          exact ih (t + 0 + 1) (by omega) (by omega)
  intro t ht
  exact key (59 - t) t ht (le_refl _)

/-- C1: `restartApplication`, after a successful POST to
`/api/admin/restart`, polls `/api/metrics` for up to 60 seconds (attempts at
elapsed seconds 0,1,2,… when responses are instantaneous, i.e. during the
1st … 60th polling second).  If the endpoint fails for the first 59 polling
seconds and answers ok on the attempt of the 60th polling second (elapsed
59 s, still inside the window), the flow reports success and reloads the
page; if it never answers ok within the 60-second window, the flow reports
the manual-reload warning and does not reload. -/
theorem C1_restart_health_poll (health : Nat → Nat × Bool) :
    ((∀ u, u < 59 → health u = (0, false)) → (health 59).2 = true →
      (restartApplication true (some true) health).outcome = .reloaded) ∧
    ((∀ u, u < 60 → (health u).2 = false) →
      (restartApplication true (some true) health).outcome = .manualWarning) := by
  constructor
  · intro hfail hok
    have : waitForServerBack health 60 = true :=
      waitLoop_ok_at_59 health hfail hok 0 (by omega)
    simp [restartApplication, this]
  · intro hnever
    have : waitForServerBack health 60 = false :=
      waitLoop_never_ok health 60 hnever 0
    simp [restartApplication, this]

/-- Witness for C1 at two concrete response sequences: one that turns ok
exactly at the attempt of the 60th polling second, and one that is never
ok. -/
theorem C1_restart_health_poll_witness :
    (restartApplication true (some true) (fun t => (0, t == 59))).outcome = .reloaded ∧
    (restartApplication true (some true) (fun _ => (0, false))).outcome = .manualWarning := by
  constructor
  · exact (C1_restart_health_poll (fun t => (0, t == 59))).1
      (by intro u hu; simp; omega) (by simp)
  · exact (C1_restart_health_poll (fun _ => (0, false))).2 (by intro u _; rfl)

/-! ### Capture UI state (app.js)

`IActionApp` keeps capture state in instance booleans and in the visibility
/ source attributes of a fixed set of DOM elements.  `AppState` collects
exactly the fields read or written by the operations modelled here. -/

/-- UI/controller state touched by the capture lifecycle of `IActionApp`:
the instance flags (`isCapturing`, `captureInProgress`,
`isVideoStreamVisible`), the `#toggle-video-stream`, `#no-capture`,
`#capture-ready` and `#video-stream` elements, the start/stop buttons and
the start-button spinner. -/
structure AppState where
  isCapturing : Bool
  captureInProgress : Bool
  isVideoStreamVisible : Bool
  toggleBtnVisible : Bool
  noCaptureVisible : Bool
  captureReadyVisible : Bool
  videoVisible : Bool
  videoSrc : String
  toggleText : String
  toggleIcon : String
  startBtnDisabled : Bool
  stopBtnDisabled : Bool
  spinnerVisible : Bool
deriving DecidableEq

/-- `IActionApp.updateCaptureControls` (app.js lines 298-309). -/
def updateCaptureControls (st : AppState) : AppState :=
  if st.isCapturing then { st with startBtnDisabled := true, stopBtnDisabled := false }
  else { st with startBtnDisabled := false, stopBtnDisabled := true }

/-- `IActionApp.showCaptureLoading` (app.js lines 311-339): shows or hides
the start-button spinner; on hide the start button is re-enabled only when
no capture is running. -/
def showCaptureLoading (st : AppState) (shouldShow : Bool) : AppState :=
  if shouldShow then { st with startBtnDisabled := true, spinnerVisible := true }
  else
    let st1 := { st with spinnerVisible := false }
    if !st1.isCapturing then { st1 with startBtnDisabled := false } else st1

/-- `IActionApp.showToggleButton` (app.js lines 696-709). -/
def showToggleButton (st : AppState) : AppState :=
  { st with toggleBtnVisible := true, noCaptureVisible := false,
            captureReadyVisible := true, isVideoStreamVisible := false }

/-- `IActionApp.hideToggleButton` (app.js lines 711-722). -/
def hideToggleButton (st : AppState) : AppState :=
  { st with toggleBtnVisible := false, noCaptureVisible := true,
            captureReadyVisible := false, isVideoStreamVisible := false }

/-- `IActionApp.stopVideoStream` (app.js lines 371-398): hide the video
element and clear its `src`, restore the "capture ready" placeholder when a
capture is still in progress, and reset the toggle button's state. -/
def stopVideoStream (st : AppState) : AppState :=
  let st1 := { st with videoVisible := false, videoSrc := "" }
  let st2 := if st1.captureInProgress then { st1 with captureReadyVisible := true } else st1
  { st2 with isVideoStreamVisible := false,
             toggleText := "Voir le flux live", toggleIcon := "bi bi-eye" }

/-- `IActionApp.checkCaptureStatusUpdate` (app.js lines 160-190): one
capture-status poll.  `resp` is `none` when the fetch threw or returned a
non-ok response (both are swallowed), otherwise `some is_capturing`.  The
new value is diffed against `this.captureInProgress` and only the two edge
transitions update the UI. -/
def checkCaptureStatusUpdate (st : AppState) (resp : Option Bool) : AppState :=
  match resp with
  | none => st
  | some isCap =>
      let was := st.captureInProgress
      if isCap && !was then
        showCaptureLoading
          (showToggleButton
            (updateCaptureControls { st with isCapturing := true, captureInProgress := true }))
          false
      else if !isCap && was then
        showCaptureLoading
          (stopVideoStream
            (hideToggleButton
              (updateCaptureControls
                { st with isCapturing := false, captureInProgress := false })))
          false
      else st

/-- C4: across two consecutive capture-status polls, a `false→true`
transition shows the stream-toggle button and hides the "no capture"
placeholder without touching the video element's `src`; a `true→false`
transition clears the video source and hides the toggle button; an
unchanged value leaves the whole state untouched. -/
theorem C4_capture_status_transitions (st : AppState) :
    (st.captureInProgress = false →
      (checkCaptureStatusUpdate st (some true)).toggleBtnVisible = true ∧
      (checkCaptureStatusUpdate st (some true)).noCaptureVisible = false ∧
      (checkCaptureStatusUpdate st (some true)).videoSrc = st.videoSrc) ∧
    (st.captureInProgress = true →
      (checkCaptureStatusUpdate st (some false)).videoSrc = "" ∧
      (checkCaptureStatusUpdate st (some false)).videoVisible = false ∧
      (checkCaptureStatusUpdate st (some false)).toggleBtnVisible = false) ∧
    checkCaptureStatusUpdate st (some st.captureInProgress) = st := by
  refine ⟨?_, ?_, ?_⟩
  · intro h
    simp [checkCaptureStatusUpdate, h, updateCaptureControls, showToggleButton,
          showCaptureLoading]
  · intro h
    simp [checkCaptureStatusUpdate, h, updateCaptureControls, hideToggleButton,
          stopVideoStream, showCaptureLoading]
  · cases hcp : st.captureInProgress <;> simp [checkCaptureStatusUpdate, hcp]

/-- A concrete idle UI state (page freshly loaded, nothing capturing). -/
def demoIdleState : AppState :=
  { isCapturing := false, captureInProgress := false, isVideoStreamVisible := false,
    toggleBtnVisible := false, noCaptureVisible := true, captureReadyVisible := false,
    videoVisible := false, videoSrc := "", toggleText := "Voir le flux live",
    toggleIcon := "bi bi-eye", startBtnDisabled := false, stopBtnDisabled := true,
    spinnerVisible := false }

/-- Witness for C4 at the concrete idle state. -/
theorem C4_capture_status_transitions_witness :
    demoIdleState.captureInProgress = false ∧
    (checkCaptureStatusUpdate demoIdleState (some true)).toggleBtnVisible = true ∧
    (checkCaptureStatusUpdate demoIdleState (some true)).noCaptureVisible = false ∧
    (checkCaptureStatusUpdate demoIdleState (some true)).videoSrc = demoIdleState.videoSrc :=
  ⟨rfl, (C4_capture_status_transitions demoIdleState).1 rfl⟩

/-! ### Capture start (app.js) -/

/-- The part of the `/api/config` response consumed by `startCapture`
(app.js lines 197-200). -/
structure ServerConfig where
  capture_mode : Option String
  rtsp_url : Option String
deriving DecidableEq

/-- JavaScript `x || default` on an optional string field: an absent field
and the empty string are both falsy. -/
def jsOrDefault (x : Option String) (d : String) : String :=
  match x with
  | none => d
  | some s => if s = "" then d else s

/-- JavaScript `x || null` on an optional string field. -/
def jsOrNull (x : Option String) : Option String :=
  match x with
  | none => none
  | some s => if s = "" then none else some s

/-- Body POSTed to `/api/start_capture` (app.js lines 232-236). -/
structure StartPayload where
  type : String
  source : Option String
  rtsp_url : Option String
deriving DecidableEq

/-- The part of the `/api/start_capture` response consumed by
`startCapture`. -/
structure StartResponse where
  ok : Bool
  message : Option String
  error : Option String
deriving DecidableEq

/-- Result of a `startCapture` run: final UI state, the request actually
sent (`none` = the start endpoint was never called), and whether the
missing-RTSP-URL warning was logged. -/
structure StartCaptureResult where
  state : AppState
  request : Option StartPayload
  warnedNoUrl : Bool
deriving DecidableEq

/-- `IActionApp.startCapture` (app.js lines 192-269).  `cfg` is the parsed
`/api/config` response (`none` = that fetch threw); `resp` is the
`/api/start_capture` response (`none` = the fetch threw). -/
def startCapture (st : AppState) (cfg : Option ServerConfig)
    (resp : Option StartResponse) : StartCaptureResult :=
  match cfg with
  | none => { state := st, request := none, warnedNoUrl := false }
  | some c =>
      let captureMode := jsOrDefault c.capture_mode "rtsp"
      let rtspUrl := jsOrNull c.rtsp_url
      if captureMode = "rtsp" && rtspUrl.isNone then
        { state := st, request := none, warnedNoUrl := true }
      else
        let st1 := showCaptureLoading st true
        let payload : StartPayload :=
          if captureMode = "rtsp" then
            { type := "rtsp", source := rtspUrl, rtsp_url := rtspUrl }
          else
            { type := "ha_polling", source := none, rtsp_url := none }
        match resp with
        | none =>
            { state := showCaptureLoading st1 false, request := some payload,
              warnedNoUrl := false }
        | some r =>
            if r.ok then
              let st2 := showToggleButton
                (updateCaptureControls
                  { st1 with isCapturing := true, captureInProgress := true })
              { state := showCaptureLoading st2 false, request := some payload,
                warnedNoUrl := false }
            else
              { state := showCaptureLoading st1 false, request := some payload,
                warnedNoUrl := false }

/-- C7: `startCapture` first learns the capture mode from the server
configuration; whenever the effective mode is `rtsp` (including the
defaulting of an absent/empty `capture_mode`) and `rtsp_url` is absent
(or empty, which `|| null` also treats as absent), it warns, never calls
the start endpoint, and leaves the whole UI state — in particular
`isCapturing` and `captureInProgress` — unchanged. -/
theorem C7_start_capture_rtsp_guard (st : AppState) (cfg : ServerConfig)
    (resp : Option StartResponse)
    (hmode : jsOrDefault cfg.capture_mode "rtsp" = "rtsp")
    (hurl : jsOrNull cfg.rtsp_url = none) :
    (startCapture st (some cfg) resp).request = none ∧
    (startCapture st (some cfg) resp).warnedNoUrl = true ∧
    (startCapture st (some cfg) resp).state.isCapturing = st.isCapturing ∧
    (startCapture st (some cfg) resp).state.captureInProgress = st.captureInProgress ∧
    (startCapture st (some cfg) resp).state = st := by
  simp [startCapture, hmode, hurl]

/-- Witness for C7: RTSP mode configured, no URL. -/
theorem C7_start_capture_rtsp_guard_witness :
    jsOrDefault (ServerConfig.mk (some "rtsp") none).capture_mode "rtsp" = "rtsp" ∧
    jsOrNull (ServerConfig.mk (some "rtsp") none).rtsp_url = none ∧
    (startCapture demoIdleState (some (ServerConfig.mk (some "rtsp") none)) none).request = none ∧
    (startCapture demoIdleState (some (ServerConfig.mk (some "rtsp") none)) none).warnedNoUrl = true :=
  ⟨by decide, by decide,
    (C7_start_capture_rtsp_guard demoIdleState (ServerConfig.mk (some "rtsp") none) none
      (by decide) (by decide)).1,
    (C7_start_capture_rtsp_guard demoIdleState (ServerConfig.mk (some "rtsp") none) none
      (by decide) (by decide)).2.1⟩

/-! ### Detections (app.js) -/

/-- The three fields of the add/edit-detection modal form. -/
structure DetectionFormInput where
  name : String
  phrase : String
  webhook : String
deriving DecidableEq

/-- The part of a `/api/detections` response consumed by `saveDetection`:
the HTTP `ok` flag, the `success`/`error` fields of a parsed JSON body when
present, and the raw-text/statusText fallback used for the error message
when the body has no `error` field. -/
structure DetectionResponse where
  ok : Bool
  bodySuccess : Option Bool
  bodyError : Option String
  fallbackText : String
deriving DecidableEq

/-- Request body built by `saveDetection` (app.js lines 469-473): a key is
present (`some`) exactly when the code assigns it. -/
structure DetectionRequestBody where
  name : Option String
  phrase : Option String
  webhook_url : Option String
deriving DecidableEq

/-- The request `saveDetection` sends. -/
structure DetectionRequest where
  url : String
  method : String
  body : DetectionRequestBody
deriving DecidableEq

/-- Observable result of one `saveDetection` run. -/
structure SaveDetectionResult where
  request : Option DetectionRequest
  modalClosed : Bool
  listRefreshed : Bool
  formReset : Bool
  editIdAfter : Option String
  errorLogged : Option String
  validationWarning : Bool
deriving DecidableEq

/-- The webhook-URL check of app.js line 459: `webhookUrl.match(/^https?:\/\/.+/)`.
`.` does not match a line terminator, so at least one non-newline character
must follow the scheme. -/
def matchesWebhookRegex (s : String) : Bool :=
  (s.startsWith "http://" &&
    match s.data.drop 7 with
    | [] => false
    | c :: _ => !(c = '\n' || c = '\r')) ||
  (s.startsWith "https://" &&
    match s.data.drop 8 with
    | [] => false
    | c :: _ => !(c = '\n' || c = '\r'))

/-- A `SaveDetectionResult` for a run rejected by client-side validation:
no request, warning logged, modal stays open, edit id unchanged. -/
def rejectedSave (editId : Option String) : SaveDetectionResult :=
  { request := none, modalClosed := false, listRefreshed := false,
    formReset := false, editIdAfter := editId, errorLogged := none,
    validationWarning := true }

/-- The three client-side validation early-returns of `saveDetection`
(app.js lines 444-465), disjoined: create mode requires name and phrase;
the edit-mode guard of line 452 tests `typeof webhookUrl === "undefined"`,
which is always false for the string `webhookUrl`, so that branch never
rejects (the literal `false` below); a non-empty webhook must match
`^https?://.+`.  All three returns have the same observable outcome (a
warning, no network call). -/
def detectionValidationFails (editId : Option String)
    (name phrase webhookUrl : String) : Bool :=
  (editId = none && (name = "" || phrase = "")) ||
  (!(editId = none) && (name = "" && phrase = "" && false)) ||
  (!(webhookUrl = "") && !matchesWebhookRegex webhookUrl)

/-- `IActionApp.saveDetection` (app.js lines 436-535).  `editId` is
`this.editDetectionId` (`none` = create mode); `resp` is `none` when the
fetch threw.  Line 472's `typeof webhookUrl !== "undefined"` test is always
true, so `webhook_url` is always assigned. -/
def saveDetection (editId : Option String) (f : DetectionFormInput)
    (resp : Option DetectionResponse) : SaveDetectionResult :=
  let name := jsTrim f.name
  let phrase := jsTrim f.phrase
  let webhookUrl := jsTrim f.webhook
  if detectionValidationFails editId name phrase webhookUrl then
    rejectedSave editId
  else
    let body : DetectionRequestBody :=
      { name := if editId = none || !(name = "") then some name else none,
        phrase := if editId = none || !(phrase = "") then some phrase else none,
        webhook_url := some webhookUrl }
    let req : DetectionRequest :=
      match editId with
      | none => { url := "/api/detections", method := "POST", body := body }
      | some i => { url := "/api/detections/" ++ i, method := "PATCH", body := body }
    match resp with
    | none =>
        { request := some req, modalClosed := false, listRefreshed := false,
          formReset := false, editIdAfter := editId,
          errorLogged := some "exception", validationWarning := false }
    | some r =>
        if r.ok then
          { request := some req, modalClosed := true, listRefreshed := true,
            formReset := true, editIdAfter := none, errorLogged := none,
            validationWarning := false }
        else
          { request := some req, modalClosed := false, listRefreshed := false,
            formReset := false, editIdAfter := editId,
            errorLogged := some (r.bodyError.getD r.fallbackText),
            validationWarning := false }

/-- C6 counterexample: in create mode with name `"a"` and phrase `"b"` both
non-empty but the webhook field holding the invalid URL `"x"`, the claim
says a POST is issued; the code rejects client-side on the webhook check
and makes no network call. -/
theorem C6_save_detection_create_counterexample :
    (saveDetection none (DetectionFormInput.mk "a" "b" "x")
        (some (DetectionResponse.mk true (some true) none ""))).request = none ∧
    (saveDetection none (DetectionFormInput.mk "a" "b" "x")
        (some (DetectionResponse.mk true (some true) none ""))).validationWarning = true := by
  refine ⟨by decide, by decide⟩

/-- C6 amended: in create mode (`editDetectionId` unset), an empty name with
a non-empty phrase is rejected client-side with no network call; with name
and phrase both non-empty AND the webhook field empty or matching
`^https?://.+` — the extra precondition the claim omits — `saveDetection`
POSTs to `/api/detections`, and on an HTTP-ok response it refreshes the
detections list and closes the modal. -/
theorem C6_save_detection_create (f : DetectionFormInput)
    (resp : Option DetectionResponse) :
    (jsTrim f.name = "" →
      (saveDetection none f resp).request = none ∧
      (saveDetection none f resp).validationWarning = true) ∧
    (jsTrim f.name ≠ "" → jsTrim f.phrase ≠ "" →
      (jsTrim f.webhook = "" ∨ matchesWebhookRegex (jsTrim f.webhook) = true) →
      ((saveDetection none f resp).request =
        some { url := "/api/detections", method := "POST",
               body := { name := some (jsTrim f.name),
                         phrase := some (jsTrim f.phrase),
                         webhook_url := some (jsTrim f.webhook) } } ∧
       (∀ r, resp = some r → r.ok = true →
          (saveDetection none f resp).modalClosed = true ∧
          (saveDetection none f resp).listRefreshed = true ∧
          (saveDetection none f resp).formReset = true))) := by
  constructor
  · intro hname
    simp [saveDetection, detectionValidationFails, hname, rejectedSave]
  · intro hname hphrase hweb
    have hval : detectionValidationFails none (jsTrim f.name) (jsTrim f.phrase)
        (jsTrim f.webhook) = false := by
      rcases hweb with hw | hw <;>
        simp [detectionValidationFails, hname, hphrase, hw]
    constructor
    · rcases resp with _ | r
      · simp [saveDetection, hval]
      · by_cases hok : r.ok <;> simp [saveDetection, hval, hok]
    · rintro r rfl hok
      simp [saveDetection, hval, hok]

/-- Witness for C6's amended theorem: empty-name rejection and a successful
create, both at concrete inputs. -/
theorem C6_save_detection_create_witness :
    (jsTrim "" = "" ∧
      (saveDetection none (DetectionFormInput.mk "" "hello" "") none).request = none) ∧
    ((saveDetection none (DetectionFormInput.mk "a" "b" "")
        (some (DetectionResponse.mk true none none ""))).modalClosed = true) :=
  ⟨⟨by decide,
    ((C6_save_detection_create (DetectionFormInput.mk "" "hello" "") none).1 (by decide)).1⟩,
   (((C6_save_detection_create (DetectionFormInput.mk "a" "b" "")
        (some (DetectionResponse.mk true none none ""))).2
      (by decide) (by decide) (Or.inl (by decide))).2
      (DetectionResponse.mk true none none "") rfl rfl).1⟩

/-- C9: `saveDetection` decides success solely from `response.ok`: any
HTTP-ok response — even one whose JSON body says `success:false` with an
error message — closes the modal, resets the form and refreshes the list
with no error surfaced, and the body's `error` field is surfaced only on
non-ok responses. -/
theorem C9_save_detection_http_status_only (editId : Option String)
    (f : DetectionFormInput) (r : DetectionResponse)
    (hsent : (saveDetection editId f (some r)).request ≠ none) :
    (r.ok = true →
      (saveDetection editId f (some r)).modalClosed = true ∧
      (saveDetection editId f (some r)).listRefreshed = true ∧
      (saveDetection editId f (some r)).formReset = true ∧
      (saveDetection editId f (some r)).errorLogged = none) ∧
    (r.ok = false →
      (saveDetection editId f (some r)).errorLogged =
        some (r.bodyError.getD r.fallbackText) ∧
      (saveDetection editId f (some r)).modalClosed = false) := by
  by_cases hval : detectionValidationFails editId (jsTrim f.name) (jsTrim f.phrase)
      (jsTrim f.webhook) = true
  · exfalso
    apply hsent
    simp [saveDetection, hval, rejectedSave]
  · rw [Bool.not_eq_true] at hval
    constructor
    · intro hok
      simp [saveDetection, hval, hok]
    · intro hok
      simp [saveDetection, hval, hok]

/-- Witness for C9: a 200 response whose body reports `success:false` with
an error message still closes the modal and surfaces nothing. -/
theorem C9_save_detection_http_status_only_witness :
    ((saveDetection none (DetectionFormInput.mk "a" "b" "")
        (some (DetectionResponse.mk true (some false) (some "boom") ""))).request ≠ none) ∧
    (saveDetection none (DetectionFormInput.mk "a" "b" "")
        (some (DetectionResponse.mk true (some false) (some "boom") ""))).modalClosed = true ∧
    (saveDetection none (DetectionFormInput.mk "a" "b" "")
        (some (DetectionResponse.mk true (some false) (some "boom") ""))).errorLogged = none :=
  ⟨by decide,
   ((C9_save_detection_http_status_only none (DetectionFormInput.mk "a" "b" "")
      (DetectionResponse.mk true (some false) (some "boom") "") (by decide)).1 rfl).1,
   (((C9_save_detection_http_status_only none (DetectionFormInput.mk "a" "b" "")
      (DetectionResponse.mk true (some false) (some "boom") "") (by decide)).1 rfl).2).2.2⟩

/-! ### Connectivity test badge / cleanup behaviour (admin.js) -/

/-- The five badge states of `AdminApp.setBadge` (admin.js lines 61-81). -/
inductive BadgeState where
  | loading
  | ok
  | error
  | info
  | idle
deriving DecidableEq

/-- The part of the `/api/admin/ai_test` response consumed by `testAI`. -/
structure AIData where
  success : Bool
  api_mode : Option String
  current_model : Option String
  error : Option String
deriving DecidableEq

/-- Observable result of a `testAI` run: final disabled state of the
`test-ai` button and final state of the `test-ai-status` badge. -/
structure TestAIResult where
  btnDisabled : Bool
  badge : BadgeState
deriving DecidableEq

/-- `AdminApp.testAI` (admin.js lines 462-499): the badge is set to loading
and the button disabled up front; `resp` is `none` when the fetch or
`res.json()` threw (including the 5-second timeout); `res.ok` is never
consulted.  The button is re-enabled in the `finally` (lines 496-498). -/
def testAI (resp : Option AIData) : TestAIResult :=
  match resp with
  | none => { btnDisabled := false, badge := .error }
  | some d =>
      if d.success then { btnDisabled := false, badge := .ok }
      else { btnDisabled := false, badge := .error }

/-- `showCaptureLoading(false)` always hides the spinner, and re-enables the
start button whenever no capture is running. -/
theorem showCaptureLoading_false_clean (s : AppState) :
    (showCaptureLoading s false).spinnerVisible = false ∧
    ((showCaptureLoading s false).isCapturing = false →
      (showCaptureLoading s false).startBtnDisabled = false) := by
  by_cases h : s.isCapturing <;> simp [showCaptureLoading, h]

/-- C8 counterexample: the claim says every asynchronous action re-enables
its triggering button on every path including success, but a successful
`startCapture` deliberately leaves the start button disabled
(`updateCaptureControls` disables it while capturing, and
`showCaptureLoading(false)` re-enables only when not capturing). -/
theorem C8_cleanup_counterexample :
    (startCapture demoIdleState
        (some (ServerConfig.mk (some "rtsp") (some "rtsp://cam")))
        (some (StartResponse.mk true none none))).state.startBtnDisabled = true ∧
    (startCapture demoIdleState
        (some (ServerConfig.mk (some "rtsp") (some "rtsp://cam")))
        (some (StartResponse.mk true none none))).request ≠ none := by
  refine ⟨by decide, by decide⟩

/-- C8 amended: every asynchronous action clears its loading indicator on
every path, and the triggering button is always re-enabled for the
connectivity tests (modelled by `testAI`) and for `restartApplication`; for
`startCapture` the spinner always ends hidden and the start button ends
re-enabled on every path on which no capture is running — after a
successful start it stays disabled by design, mirrored by the stop button
becoming enabled. -/
theorem C8_cleanup_guarantees :
    (∀ resp, (testAI resp).btnDisabled = false ∧ (testAI resp).badge ≠ .loading) ∧
    (∀ confirmed postResp health,
      (restartApplication confirmed postResp health).btnDisabled = false) ∧
    (∀ (st : AppState) cfg resp, st.spinnerVisible = false → st.startBtnDisabled = false →
      ((startCapture st cfg resp).state.spinnerVisible = false ∧
       ((startCapture st cfg resp).state.isCapturing = false →
          (startCapture st cfg resp).state.startBtnDisabled = false))) := by
  refine ⟨?_, ?_, ?_⟩
  · intro resp
    rcases resp with _ | d
    · simp [testAI]
    · by_cases h : d.success <;> simp [testAI, h]
  · intro confirmed postResp health
    rcases confirmed with _ | _
    · simp [restartApplication]
    · rcases postResp with _ | ok
      · simp [restartApplication]
      · rcases ok with _ | _ <;>
          by_cases hw : waitForServerBack health 60 <;>
            simp [restartApplication, hw]
  · intro st cfg resp hsp hsb
    rcases cfg with _ | c
    · exact ⟨by simpa [startCapture] using hsp, fun _ => by simpa [startCapture] using hsb⟩
    · by_cases hg : (decide (jsOrDefault c.capture_mode "rtsp" = "rtsp") &&
          (jsOrNull c.rtsp_url).isNone) = true
      · have hred : startCapture st (some c) resp =
            { state := st, request := none, warnedNoUrl := true } := by
          simp only [startCapture, hg, if_true]
        rw [hred]
        exact ⟨hsp, fun _ => hsb⟩
      · rw [Bool.not_eq_true] at hg
        rcases resp with _ | r
        · simpa [startCapture, hg] using
            showCaptureLoading_false_clean (showCaptureLoading st true)
        · by_cases hok : r.ok = true
          · simpa [startCapture, hg, hok] using
              showCaptureLoading_false_clean
                (showToggleButton (updateCaptureControls
                  { showCaptureLoading st true with
                      isCapturing := true, captureInProgress := true }))
          · rw [Bool.not_eq_true] at hok
            simpa [startCapture, hg, hok] using
              showCaptureLoading_false_clean (showCaptureLoading st true)

/-- Witness for C8's amended theorem at concrete inputs: a timed-out AI
test, a declined restart and a failing start. -/
theorem C8_cleanup_guarantees_witness :
    ((testAI none).btnDisabled = false ∧ (testAI none).badge ≠ .loading) ∧
    (restartApplication false none (fun _ => (0, false))).btnDisabled = false ∧
    (demoIdleState.spinnerVisible = false ∧
      (startCapture demoIdleState none none).state.spinnerVisible = false) :=
  ⟨C8_cleanup_guarantees.1 none,
   C8_cleanup_guarantees.2.1 false none (fun _ => (0, false)),
   ⟨rfl, (C8_cleanup_guarantees.2.2 demoIdleState none none rfl rfl).1⟩⟩

/-! ### Dynamic camera form builder (admin.js)

`addCameraConfig` (admin.js lines 781-908) renders one card per additional
camera.  Every form control the template creates is named
`camera_{k}_{suffix}` for the generated id `camera_{k}`, and the card
carries `data-camera-id = "camera_{k}"`.  Since `camera_` followed by a
decimal number followed by `_suffix` decomposes uniquely (no template
suffix starts with a digit or an underscore), we embed these strings by
their components: a fragment id is the `Nat` `k`, an input name is a
`(Nat, FieldSuffix)` pair, and the stored object's literal `"id"` key is
kept separate (no input is named `"id"`, so `populateCameraFields` never
matches it). -/

/-- The input-name suffixes of the camera-card template (admin.js lines
796-904), in order of first appearance.  `analysis_interval` occurs TWICE
in the template (once in the RTSP block, once in the HA block) under the
same name. -/
inductive FieldSuffix where
  | name
  | mode
  | idAttr
  | rtsp_url
  | rtsp_username
  | rtsp_password
  | analysis_interval
  | ha_entity
  | ha_attr
  | ha_interval
deriving DecidableEq

/-- One camera card: its `data-camera-id` (the `k` of `camera_{k}`) and its
form controls in document order, as (name-suffix, value) pairs. -/
structure Fragment where
  cid : Nat
  inputs : List (FieldSuffix × String)
deriving DecidableEq

/-- The controls and default values the template of `addCameraConfig`
creates for card number `k` (admin.js lines 796-904), in document order.
Note both `analysis_interval` inputs default to `"2.0"`, the hidden HA
block still contains its inputs, and the select defaults to `"rtsp"`. -/
def defaultInputs (k : Nat) : List (FieldSuffix × String) :=
  [(.name, "Caméra " ++ toString k),
   (.mode, "rtsp"),
   (.idAttr, "camera_" ++ toString k),
   (.rtsp_url, ""),
   (.rtsp_username, ""),
   (.rtsp_password, ""),
   (.analysis_interval, "2.0"),
   (.ha_entity, ""),
   (.ha_attr, "entity_picture"),
   (.ha_interval, "1.0"),
   (.analysis_interval, "2.0")]

/-- `AdminApp.addCameraConfig` (admin.js lines 781-908): the generated id is
`camera_{count+1}` where `count` is the number of cards currently in the
container; if a card with that `data-camera-id` already exists the call
logs a warning and returns without appending (lines 787-790). -/
def addCameraConfig (c : List Fragment) : List Fragment :=
  let cid := c.length + 1
  if c.any (fun f => f.cid == cid) then c
  else c ++ [{ cid := cid, inputs := defaultInputs cid }]

/-- `AdminApp.removeCameraConfig` (admin.js lines 910-919): detach the first
card with the given id, if any (the call then re-serializes the remaining
cards into local storage, which is `saveCamerasConfiguration` below). -/
def removeCameraConfig (c : List Fragment) (k : Nat) : List Fragment :=
  c.eraseP (fun f => f.cid == k)

/-- A stored camera descriptor: the JavaScript object
`{id: cameraId, ...fields}` built by `saveCamerasConfiguration`.  `fields`
is the rest of the object in key-insertion order. -/
structure Camera where
  id : Nat
  fields : List ((Nat × FieldSuffix) × String)
deriving DecidableEq

/-- JavaScript property assignment `camera[key] = value`: overwrite the
value in place if the key exists, else append. -/
def setKey : List ((Nat × FieldSuffix) × String) → (Nat × FieldSuffix) → String →
    List ((Nat × FieldSuffix) × String)
  | [], k, v => [(k, v)]
  | (k', v') :: rest, k, v =>
      if k' = k then (k, v) :: rest else (k', v') :: setKey rest k v

/-- The inner loop of `saveCamerasConfiguration` (admin.js lines 994-999):
every control of the card (hidden ones included) with a non-empty value is
written into the camera object (template names are never empty, so only
`input.value` gates). -/
def saveFields (cid : Nat) (inputs : List (FieldSuffix × String)) :
    List ((Nat × FieldSuffix) × String) :=
  inputs.foldl (fun m sv => if sv.2 ≠ "" then setKey m (cid, sv.1) sv.2 else m) []

/-- One card serialized by `saveCamerasConfiguration`. -/
def saveFragment (f : Fragment) : Camera :=
  { id := f.cid, fields := saveFields f.cid f.inputs }

/-- `AdminApp.saveCamerasConfiguration` (admin.js lines 984-1009): serialize
every `[data-camera-id]` card, in document order, and store the JSON list
(JSON round-tripping is the identity on this data and is not modelled). -/
def saveCamerasConfiguration (c : List Fragment) : List Camera :=
  c.map saveFragment

/-- Replace the value of the first control with the given name suffix. -/
def setFirstPair : List (FieldSuffix × String) → FieldSuffix → String →
    List (FieldSuffix × String)
  | [], _, _ => []
  | (s', v') :: rest, s, v =>
      if s' = s then (s, v) :: rest else (s', v') :: setFirstPair rest s v

/-- Does the card contain a control with this name suffix? -/
def fragmentHas (f : Fragment) (s : FieldSuffix) : Bool :=
  f.inputs.any (fun p => p.1 == s)

/-- Set the first matching control inside one card. -/
def setFirstInputInFragment (f : Fragment) (s : FieldSuffix) (v : String) : Fragment :=
  { f with inputs := setFirstPair f.inputs s v }

/-- `document.querySelector('[name=...]').value = v`: the first control in
document order whose name is `camera_{j}_{s}` — i.e. the first card with
`cid = j` containing suffix `s` — is updated; with no match nothing
happens. -/
def setFirstInput : List Fragment → Nat → FieldSuffix → String → List Fragment
  | [], _, _, _ => []
  | f :: rest, j, s, v =>
      if f.cid == j && fragmentHas f s then setFirstInputInFragment f s v :: rest
      else f :: setFirstInput rest j s v

/-- `AdminApp.populateCameraFields` (admin.js lines 974-982): for each key
of the stored object, in insertion order, write its value into the first
matching control anywhere in the document.  The literal `"id"` key matches
no input (every input name has a `camera_{j}_` prefix), so iterating
`cam.fields` alone is exact. -/
def populateCameraFields (c : List Fragment) (cam : Camera) : List Fragment :=
  cam.fields.foldl (fun c kv => setFirstInput c kv.1.1 kv.1.2 kv.2) c

/-- `AdminApp.loadCamerasConfiguration` (admin.js lines 934-953):
`clearExistingCameras` empties the container, then for each stored camera
`addCameraConfig()` appends a fresh default card and
`populateCameraFields(camera)` writes the saved values back.  `none`
models an absent `additional_cameras` local-storage key. -/
def loadCamerasConfiguration (stored : Option (List Camera)) : List Fragment :=
  match stored with
  | none => []
  | some cams => cams.foldl (fun c cam => populateCameraFields (addCameraConfig c) cam) []

/-- Value of a stored camera's own field `camera_{id}_{s}` (JavaScript
`camera[`${camera.id}_{s}`]`). -/
def camValue (cam : Camera) (s : FieldSuffix) : Option String :=
  (cam.fields.find? (fun kv => kv.1 == (cam.id, s))).map (·.2)

/-- The `{id, name, mode, mode-specific fields}` projection of a stored
camera descriptor named by the round-trip claim: for mode `ha_polling` the
specific fields are `ha_entity`/`ha_attr`/`ha_interval`, otherwise
`rtsp_url`/`rtsp_username`/`rtsp_password` (the data model of the spec). -/
structure CameraView where
  id : Nat
  name : Option String
  mode : Option String
  specific1 : Option String
  specific2 : Option String
  specific3 : Option String
deriving DecidableEq

/-- Project a stored camera to its claim-relevant descriptor view. -/
def cameraView (cam : Camera) : CameraView :=
  let mode := camValue cam .mode
  if mode == some "ha_polling" then
    { id := cam.id, name := camValue cam .name, mode := mode,
      specific1 := camValue cam .ha_entity,
      specific2 := camValue cam .ha_attr,
      specific3 := camValue cam .ha_interval }
  else
    { id := cam.id, name := camValue cam .name, mode := mode,
      specific1 := camValue cam .rtsp_url,
      specific2 := camValue cam .rtsp_username,
      specific3 := camValue cam .rtsp_password }

/-! ### C5: id-collision guard and id uniqueness -/

/-- Container states reachable through the camera-card operations: the
empty container (initial, or after `clearExistingCameras`), adding a card,
removing a card, and populating fields (which never touches
`data-camera-id`s). -/
inductive Reachable : List Fragment → Prop where
  | protected empty : Reachable []
  | protected add (c : List Fragment) : Reachable c → Reachable (addCameraConfig c)
  | protected remove (c : List Fragment) (k : Nat) :
      Reachable c → Reachable (removeCameraConfig c k)
  | protected populate (c : List Fragment) (cam : Camera) :
      Reachable c → Reachable (populateCameraFields c cam)

/-- `setFirstInput` never changes any card's `data-camera-id`. -/
theorem setFirstInput_map_cid (c : List Fragment) (j : Nat) (s : FieldSuffix) (v : String) :
    (setFirstInput c j s v).map Fragment.cid = c.map Fragment.cid := by
  induction c with
  | nil => rfl
  | cons f rest ih =>
      by_cases h : (f.cid == j && fragmentHas f s) = true
      · simp [setFirstInput, h, setFirstInputInFragment]
      · rw [Bool.not_eq_true] at h
        simp [setFirstInput, h, ih]

/-- `populateCameraFields` never changes any card's `data-camera-id`. -/
theorem populateCameraFields_map_cid (c : List Fragment) (cam : Camera) :
    (populateCameraFields c cam).map Fragment.cid = c.map Fragment.cid := by
  unfold populateCameraFields
  induction cam.fields generalizing c with
  | nil => rfl
  | cons kv rest ih => rw [List.foldl_cons, ih, setFirstInput_map_cid]

/-- C5: whenever the next generated id `camera_{count+1}` collides with an
existing card's `data-camera-id`, `addCameraConfig` is a no-op (it logs a
warning and appends nothing); consequently, along every sequence of
add/remove/populate/clear operations, no two cards ever share a
`data-camera-id`. -/
theorem C5_no_duplicate_camera_ids :
    (∀ c : List Fragment, c.any (fun f => f.cid == c.length + 1) = true →
        addCameraConfig c = c) ∧
    (∀ c : List Fragment, Reachable c → (c.map Fragment.cid).Nodup) := by
  constructor
  · intro c h
    simp only [addCameraConfig, h, if_true]
  · intro c hr
    induction hr with
    | empty => simp
    | add c _ ih =>
        unfold addCameraConfig
        by_cases h : c.any (fun f => f.cid == c.length + 1) = true
        · simpa [h] using ih
        · rw [Bool.not_eq_true] at h
          simp only [h, Bool.false_eq_true, if_false, List.map_append, List.map_cons,
            List.map_nil]
          rw [List.nodup_append]
          refine ⟨ih, List.nodup_singleton _, ?_⟩
          intro x hx hy
          simp only [List.mem_singleton] at hy
          subst hy
          rcases List.mem_map.mp hx with ⟨f, hf, hcid⟩
          have hall := List.any_eq_false.mp h f hf
          simp only [beq_iff_eq] at hall
          exact hall hcid
    | remove c k _ ih =>
        exact ih.sublist (List.Sublist.map Fragment.cid (List.eraseP_sublist c))
    | populate c cam _ ih =>
        rw [populateCameraFields_map_cid]
        exact ih

/-- Witness for C5: after `add, add, remove camera_1` the container holds
one card with id `camera_2`; the next generated id is `camera_2` again and
the guard makes `addCameraConfig` a no-op; the reachable container has
pairwise distinct ids. -/
theorem C5_no_duplicate_camera_ids_witness :
    ((removeCameraConfig (addCameraConfig (addCameraConfig [])) 1).any
        (fun f => f.cid == (removeCameraConfig (addCameraConfig (addCameraConfig [])) 1).length + 1) = true) ∧
    addCameraConfig (removeCameraConfig (addCameraConfig (addCameraConfig [])) 1) =
      removeCameraConfig (addCameraConfig (addCameraConfig [])) 1 ∧
    ((removeCameraConfig (addCameraConfig (addCameraConfig [])) 1).map Fragment.cid).Nodup :=
  ⟨by decide,
   C5_no_duplicate_camera_ids.1 _ (by decide),
   C5_no_duplicate_camera_ids.2 _
     (Reachable.remove _ 1 (Reachable.add _ (Reachable.add _ Reachable.empty)))⟩

/-! ### C10: the ADDITIONAL_CAMERAS key of the config payload -/

/-- The JSON object POSTed by `saveConfiguration` (admin.js lines 329-362):
the form's fields plus, only when at least one additional camera exists,
the `ADDITIONAL_CAMERAS` key holding the serialized camera list
(lines 341-345). -/
structure ConfigPayload where
  formFields : List (String × String)
  additionalCameras : Option (List Camera)
deriving DecidableEq

/-- The payload-building part of `AdminApp.saveConfiguration` (admin.js
lines 334-345): `config[ADDITIONAL_CAMERAS]` is assigned only under
`additionalCameras.length > 0`. -/
def saveConfigurationPayload (formData : List (String × String))
    (container : List Fragment) : ConfigPayload :=
  let additionalCameras := saveCamerasConfiguration container
  { formFields := formData,
    additionalCameras :=
      if additionalCameras.length > 0 then some additionalCameras else none }

/-- C10: the `ADDITIONAL_CAMERAS` key is present in the POSTed config iff at
least one camera card exists; an empty camera list (e.g. after removing the
last card) omits the key entirely — the payload never carries
`ADDITIONAL_CAMERAS = []`. -/
theorem C10_additional_cameras_key (formData : List (String × String))
    (container : List Fragment) :
    (container = [] →
      (saveConfigurationPayload formData container).additionalCameras = none) ∧
    (container ≠ [] →
      (saveConfigurationPayload formData container).additionalCameras =
        some (saveCamerasConfiguration container)) ∧
    (saveConfigurationPayload formData container).additionalCameras ≠ some [] := by
  refine ⟨?_, ?_, ?_⟩
  · rintro rfl
    simp [saveConfigurationPayload, saveCamerasConfiguration]
  · intro h
    rcases container with _ | ⟨f, rest⟩
    · exact absurd rfl h
    · simp [saveConfigurationPayload, saveCamerasConfiguration]
  · rcases container with _ | ⟨f, rest⟩
    · simp [saveConfigurationPayload, saveCamerasConfiguration]
    · simp [saveConfigurationPayload, saveCamerasConfiguration]

/-- Witness for C10: the empty container and a one-card container (the
latter obtained by removing the last card is the empty container again). -/
theorem C10_additional_cameras_key_witness :
    (saveConfigurationPayload [("MQTT_BROKER", "mqtt.local")] []).additionalCameras = none ∧
    (saveConfigurationPayload [] (addCameraConfig [])).additionalCameras =
      some (saveCamerasConfiguration (addCameraConfig [])) :=
  ⟨(C10_additional_cameras_key [("MQTT_BROKER", "mqtt.local")] []).1 rfl,
   (C10_additional_cameras_key [] (addCameraConfig [])).2.1 (by decide)⟩

/-! ### C2: save/load round trip of the camera configuration -/

/-- C2 counterexample: store the (honestly reachable) configuration obtained
by adding two cameras and removing the first — local storage then holds the
single descriptor `camera_2`.  The loader re-creates fragments with freshly
generated ids starting from `camera_1`, so `populateCameraFields` finds no
`camera_2_*` inputs, every saved value is dropped, and re-serializing
yields a default `camera_1` descriptor: the `{id, name, mode,
mode-specific fields}` sets differ (already at `id`). -/
theorem C2_camera_roundtrip_counterexample :
    (saveCamerasConfiguration (loadCamerasConfiguration (some (saveCamerasConfiguration
        (removeCameraConfig (addCameraConfig (addCameraConfig [])) 1))))).map cameraView ≠
    (saveCamerasConfiguration
        (removeCameraConfig (addCameraConfig (addCameraConfig [])) 1)).map cameraView := by
  decide

/-- A card is well formed when its controls are exactly the template's, in
template order (the user can edit values but not the structure), the mode
select holds one of its two options, the display name is non-empty, and —
for HA mode, whose `ha_attr`/`ha_interval` fields are part of the
mode-specific view — those two fields are non-empty (their template
defaults are non-empty, so an empty value could not survive a save). -/
def wfFragment (k : Nat) (f : Fragment) : Prop :=
  ∃ nm md idv u1 u2 u3 ai he ha hi ai2,
    f.cid = k ∧
    f.inputs = [(.name, nm), (.mode, md), (.idAttr, idv), (.rtsp_url, u1),
      (.rtsp_username, u2), (.rtsp_password, u3), (.analysis_interval, ai),
      (.ha_entity, he), (.ha_attr, ha), (.ha_interval, hi),
      (.analysis_interval, ai2)] ∧
    nm ≠ "" ∧ (md = "rtsp" ∨ md = "ha_polling") ∧
    (md = "ha_polling" → ha ≠ "" ∧ hi ≠ "")

/-- The container's cards are well formed and carry the canonical generated
ids `camera_{n+1}, camera_{n+2}, …` in document order. -/
def wfList : Nat → List Fragment → Prop
  | _, [] => True
  | n, f :: rest => wfFragment (n + 1) f ∧ wfList (n + 1) rest

/-- Generic lookup in a camera object's field list (JavaScript property
read). -/
def findKey (m : List ((Nat × FieldSuffix) × String)) (k : Nat × FieldSuffix) :
    Option String :=
  (m.find? (fun kv => kv.1 == k)).map (·.2)

/-- The value the DOM shows for suffix `s`: the first matching control
(what `populateCameraFields`' `querySelector` writes and what a reader
sees). -/
def firstVal (l : List (FieldSuffix × String)) (s : FieldSuffix) : Option String :=
  (l.find? (fun p => p.1 == s)).map (·.2)

/-- The value `saveCamerasConfiguration` ends up storing for suffix `s`: the
value of the LAST control with that name suffix whose value is non-empty
(later controls overwrite earlier ones in the object; empty values are
skipped). -/
def lastSet : List (FieldSuffix × String) → FieldSuffix → Option String
  | [], _ => none
  | (s', v') :: rest, s =>
      match lastSet rest s with
      | some v => some v
      | none => if s' = s ∧ v' ≠ "" then some v' else none

/-- Property read after property write. -/
theorem findKey_setKey (m : List ((Nat × FieldSuffix) × String))
    (k k' : Nat × FieldSuffix) (v : String) :
    findKey (setKey m k v) k' = if k' = k then some v else findKey m k' := by
  induction m with
  | nil =>
      by_cases h : k' = k
      · simp [setKey, findKey, h]
      · simp [setKey, findKey, h, Ne.symm h]
  | cons kv rest ih =>
      obtain ⟨k0, v0⟩ := kv
      by_cases h0 : k0 = k
      · subst h0
        by_cases h : k' = k0
        · subst h
          simp [setKey, findKey]
        · simp [setKey, findKey, h, Ne.symm h]
      · by_cases h : k' = k0
        · subst h
          simp only [setKey, if_neg h0]
          by_cases hk : k' = k
          · subst hk
            exact absurd rfl h0
          · simp [findKey, hk]
        · simp only [setKey, if_neg h0]
          have hne : (k0 == k') = false := by
            simp [Ne.symm h]
          simp only [findKey, List.find?_cons, hne]
          exact ih

/-- What one camera object finally holds for its field `camera_{cid}_{s}`:
the last non-empty value among the card's controls named with suffix
`s`. -/
theorem findKey_saveFields (inputs : List (FieldSuffix × String)) (cid : Nat)
    (s : FieldSuffix) :
    ∀ m, findKey (inputs.foldl
        (fun m sv => if sv.2 ≠ "" then setKey m (cid, sv.1) sv.2 else m) m) (cid, s) =
      match lastSet inputs s with
      | some v => some v
      | none => findKey m (cid, s) := by
  induction inputs with
  | nil => intro m; simp [lastSet]
  | cons sv rest ih =>
      intro m
      obtain ⟨s', v'⟩ := sv
      rw [List.foldl_cons, ih]
      by_cases hv : v' = ""
      · simp only [hv, ne_eq, not_true_eq_false, if_false, lastSet]
        rcases hrest : lastSet rest s with _ | w
        · simp [hrest, hv]
        · simp [hrest]
      · simp only [ne_eq, hv, not_false_eq_true, if_true, lastSet]
        rcases hrest : lastSet rest s with _ | w
        · simp only [hrest, findKey_setKey]
          by_cases hs : s' = s
          · subst hs
            simp [hv]
          · have : ¬ ((cid, s) = (cid, s')) := by
              simp [Ne.symm hs]
            simp [this, hs, hv]
        · simp [hrest]

/-- `lastSet` only ever reports non-empty values. -/
theorem lastSet_ne_empty (l : List (FieldSuffix × String)) (s : FieldSuffix) (v : String)
    (h : lastSet l s = some v) : v ≠ "" := by
  induction l with
  | nil => simp [lastSet] at h
  | cons sv rest ih =>
      obtain ⟨s', v'⟩ := sv
      simp only [lastSet] at h
      rcases hrest : lastSet rest s with _ | w
      · rw [hrest] at h
        simp only at h
        split at h
        · rename_i hcond
          cases h
          exact hcond.2
        · cases h
      · rw [hrest] at h
        simp only at h
        cases h
        exact ih hrest

/-- Membership after property write. -/
theorem setKey_mem {m : List ((Nat × FieldSuffix) × String)} {k : Nat × FieldSuffix}
    {v : String} {kv : (Nat × FieldSuffix) × String} :
    kv ∈ setKey m k v → kv = (k, v) ∨ kv ∈ m := by
  induction m with
  | nil => intro h; simpa [setKey] using h
  | cons kv0 rest ih =>
      intro h
      obtain ⟨k0, v0⟩ := kv0
      by_cases h0 : k0 = k
      · subst h0
        simp only [setKey, List.mem_cons, reduceIte] at h
        rcases h with h1 | h1
        · exact Or.inl h1
        · exact Or.inr (List.mem_cons_of_mem _ h1)
      · simp only [setKey, if_neg h0, List.mem_cons] at h
        rcases h with h1 | h1
        · exact Or.inr (h1 ▸ List.mem_cons_self _ _)
        · rcases ih h1 with h' | h'
          · exact Or.inl h'
          · exact Or.inr (List.mem_cons_of_mem _ h')

/-- Every key a camera object gets from serializing card `cid` is a
`camera_{cid}_*` key. -/
theorem saveFields_key_idx (cid : Nat) (inputs : List (FieldSuffix × String)) :
    ∀ kv ∈ saveFields cid inputs, kv.1.1 = cid := by
  have key : ∀ (l : List (FieldSuffix × String)) (m : List ((Nat × FieldSuffix) × String)),
      (∀ kv ∈ m, kv.1.1 = cid) →
      ∀ kv ∈ l.foldl
          (fun m sv => if sv.2 ≠ "" then setKey m (cid, sv.1) sv.2 else m) m,
        kv.1.1 = cid := by
    intro l
    induction l with
    | nil => intro m hm kv h; exact hm kv h
    | cons sv rest ih =>
        intro m hm kv h
        rw [List.foldl_cons] at h
        refine ih _ ?_ kv h
        intro kv' h'
        by_cases hv : sv.2 = ""
        · simp only [ne_eq, hv, not_true_eq_false, if_false] at h'
          exact hm kv' h'
        · simp only [ne_eq, hv, not_false_eq_true, if_true] at h'
          rcases setKey_mem h' with h'' | h''
          · rw [h'']
          · exact hm kv' h''
  exact key inputs [] (by intro kv h; cases h)

/-- Writing an existing property leaves the key list unchanged. -/
theorem setKey_keys_mem {m : List ((Nat × FieldSuffix) × String)}
    {k : Nat × FieldSuffix} (v : String) (h : k ∈ m.map Prod.fst) :
    (setKey m k v).map Prod.fst = m.map Prod.fst := by
  induction m with
  | nil => cases h
  | cons kv0 rest ih =>
      obtain ⟨k0, v0⟩ := kv0
      by_cases h0 : k0 = k
      · subst h0
        simp [setKey]
      · simp only [List.map_cons, List.mem_cons] at h
        rcases h with h | h
        · exact absurd h.symm h0
        · simp [setKey, h0, ih h]

/-- Writing a fresh property appends its key. -/
theorem setKey_keys_not_mem {m : List ((Nat × FieldSuffix) × String)}
    {k : Nat × FieldSuffix} (v : String) (h : k ∉ m.map Prod.fst) :
    (setKey m k v).map Prod.fst = m.map Prod.fst ++ [k] := by
  induction m with
  | nil => simp [setKey]
  | cons kv0 rest ih =>
      obtain ⟨k0, v0⟩ := kv0
      simp only [List.map_cons, List.mem_cons] at h
      push_neg at h
      have h0 : ¬ k0 = k := fun hh => h.1 hh.symm
      simp [setKey, h0, ih h.2]

/-- Property writes preserve key uniqueness. -/
theorem setKey_keys_nodup {m : List ((Nat × FieldSuffix) × String)}
    {k : Nat × FieldSuffix} (v : String) (h : (m.map Prod.fst).Nodup) :
    ((setKey m k v).map Prod.fst).Nodup := by
  by_cases hk : k ∈ m.map Prod.fst
  · rw [setKey_keys_mem v hk]; exact h
  · rw [setKey_keys_not_mem v hk]
    rw [List.nodup_append]
    exact ⟨h, List.nodup_singleton _, by
      intro x hx hy
      simp only [List.mem_singleton] at hy
      subst hy
      exact hk hx⟩

/-- A serialized camera object has pairwise distinct keys. -/
theorem saveFields_keys_nodup (cid : Nat) (inputs : List (FieldSuffix × String)) :
    ((saveFields cid inputs).map Prod.fst).Nodup := by
  have key : ∀ (l : List (FieldSuffix × String)) (m : List ((Nat × FieldSuffix) × String)),
      (m.map Prod.fst).Nodup →
      ((l.foldl (fun m sv => if sv.2 ≠ "" then setKey m (cid, sv.1) sv.2 else m) m).map
          Prod.fst).Nodup := by
    intro l
    induction l with
    | nil => intro m hm; exact hm
    | cons sv rest ih =>
        intro m hm
        rw [List.foldl_cons]
        refine ih _ ?_
        by_cases hv : sv.2 = ""
        · simpa [hv] using hm
        · simp only [ne_eq, hv, not_false_eq_true, if_true]
          exact setKey_keys_nodup _ hm
  exact key inputs [] (by simp)

/-- With all keys on one camera id, distinct keys mean distinct suffixes. -/
theorem keys_suffix_nodup {m : List ((Nat × FieldSuffix) × String)} {cid : Nat}
    (hidx : ∀ kv ∈ m, kv.1.1 = cid) (h : (m.map Prod.fst).Nodup) :
    (m.map (fun kv => kv.1.2)).Nodup := by
  have heq : m.map (fun kv => kv.1.2) = (m.map Prod.fst).map Prod.snd := by
    simp [List.map_map]
  rw [heq]
  refine h.map_on ?_
  intro x hx y hy hxy
  rcases List.mem_map.mp hx with ⟨kvx, hkvx, hxe⟩
  rcases List.mem_map.mp hy with ⟨kvy, hkvy, hye⟩
  have hx1 : x.1 = cid := by rw [← hxe]; exact hidx kvx hkvx
  have hy1 : y.1 = cid := by rw [← hye]; exact hidx kvy hkvy
  obtain ⟨x1, x2⟩ := x
  obtain ⟨y1, y2⟩ := y
  simp only at hx1 hy1 hxy
  rw [hx1, hy1, hxy]

/-! Locality of `populateCameraFields`. -/

/-- Setting a control's value never changes the set of control names. -/
theorem setFirstPair_map_fst (l : List (FieldSuffix × String)) (s : FieldSuffix)
    (v : String) : (setFirstPair l s v).map Prod.fst = l.map Prod.fst := by
  induction l with
  | nil => rfl
  | cons p rest ih =>
      obtain ⟨s0, v0⟩ := p
      by_cases hs : s0 = s
      · subst hs; simp [setFirstPair]
      · simp [setFirstPair, hs, ih]

/-- Setting a control's value preserves which names occur. -/
theorem any_fst_setFirstPair (l : List (FieldSuffix × String)) (s' : FieldSuffix)
    (v : String) (s : FieldSuffix) :
    (setFirstPair l s' v).any (fun p => p.1 == s) = l.any (fun p => p.1 == s) := by
  induction l with
  | nil => rfl
  | cons p rest ih =>
      obtain ⟨s0, v0⟩ := p
      by_cases hs : s0 = s'
      · subst hs; simp [setFirstPair]
      · simp [setFirstPair, hs, ih]

/-- Setting a control preserves which names a card has. -/
theorem fragmentHas_set (f : Fragment) (s' : FieldSuffix) (v : String) (s : FieldSuffix) :
    fragmentHas (setFirstInputInFragment f s' v) s = fragmentHas f s := by
  simp only [fragmentHas, setFirstInputInFragment]
  exact any_fst_setFirstPair f.inputs s' v s

/-- The in-card effect of populating one camera object: apply each stored
field, in insertion order, to the card's first control with that name
suffix. -/
def popFragment (f : Fragment) (fields : List ((Nat × FieldSuffix) × String)) : Fragment :=
  fields.foldl (fun f kv => setFirstInputInFragment f kv.1.2 kv.2) f

/-- Populating never changes the card's id. -/
theorem popFragment_cid (fields : List ((Nat × FieldSuffix) × String)) :
    ∀ f : Fragment, (popFragment f fields).cid = f.cid := by
  induction fields with
  | nil => intro f; rfl
  | cons kv rest ih =>
      intro f
      rw [popFragment, List.foldl_cons]
      exact ih (setFirstInputInFragment f kv.1.2 kv.2)

/-- Populating never changes the card's control names. -/
theorem popFragment_map_fst (fields : List ((Nat × FieldSuffix) × String)) :
    ∀ f : Fragment, (popFragment f fields).inputs.map Prod.fst = f.inputs.map Prod.fst := by
  induction fields with
  | nil => intro f; rfl
  | cons kv rest ih =>
      intro f
      rw [popFragment, List.foldl_cons]
      exact (ih (setFirstInputInFragment f kv.1.2 kv.2)).trans
        (by simp [setFirstInputInFragment, setFirstPair_map_fst])

/-- `querySelector('[name=camera_{j}_{s}]')` skips every card whose id is
not `j` and lands in the first card with id `j` (which has the control). -/
theorem setFirstInput_append (c0 : List Fragment) (f : Fragment) (j : Nat)
    (s : FieldSuffix) (v : String) (hc : ∀ g ∈ c0, g.cid ≠ j) (hf : f.cid = j)
    (hs : fragmentHas f s = true) :
    setFirstInput (c0 ++ [f]) j s v = c0 ++ [setFirstInputInFragment f s v] := by
  induction c0 with
  | nil => simp [setFirstInput, hf, hs]
  | cons g rest ih =>
      have hg : g.cid ≠ j := hc g (List.mem_cons_self g rest)
      have hcond : (g.cid == j && fragmentHas g s) = false := by
        simp [hg]
      simp only [List.cons_append, setFirstInput, hcond, Bool.false_eq_true, if_false,
        List.cons.injEq, true_and]
      exact ih (fun g' h' => hc g' (List.mem_cons_of_mem g h'))

/-- Populating a camera whose keys all target the last card only rewrites
that card. -/
theorem populate_append (fields : List ((Nat × FieldSuffix) × String)) :
    ∀ (c0 : List Fragment) (f : Fragment) (j : Nat),
      (∀ g ∈ c0, g.cid ≠ j) → f.cid = j → (∀ s, fragmentHas f s = true) →
      (∀ kv ∈ fields, kv.1.1 = j) →
      fields.foldl (fun c kv => setFirstInput c kv.1.1 kv.1.2 kv.2) (c0 ++ [f]) =
        c0 ++ [popFragment f fields] := by
  induction fields with
  | nil => intro c0 f j _ _ _ _; rfl
  | cons kv rest ih =>
      intro c0 f j hc hf hhas hidx
      have hk : kv.1.1 = j := hidx kv (List.mem_cons_self kv rest)
      rw [List.foldl_cons, hk,
        setFirstInput_append c0 f j kv.1.2 kv.2 hc hf (hhas kv.1.2)]
      rw [popFragment, List.foldl_cons]
      exact ih c0 (setFirstInputInFragment f kv.1.2 kv.2) j hc hf
        (fun s => (fragmentHas_set f kv.1.2 kv.2 s).trans (hhas s))
        (fun kv' h' => hidx kv' (List.mem_cons_of_mem kv h'))

/-- Writing suffix `s` makes the first `s`-control read back the written
value (when the card has such a control). -/
theorem firstVal_set_same (l : List (FieldSuffix × String)) (s : FieldSuffix) (v : String)
    (h : l.any (fun p => p.1 == s) = true) :
    firstVal (setFirstPair l s v) s = some v := by
  induction l with
  | nil => simp at h
  | cons p rest ih =>
      obtain ⟨s0, v0⟩ := p
      by_cases hs : s0 = s
      · subst hs
        simp [setFirstPair, firstVal]
      · have h' : rest.any (fun p => p.1 == s) = true := by
          simpa [List.any_cons, hs] using h
        simp only [setFirstPair, if_neg hs, firstVal]
        rw [List.find?_cons_of_neg _ (by simp [hs])]
        exact ih h'

/-- Writing one suffix does not change what another suffix reads back. -/
theorem firstVal_set_other (l : List (FieldSuffix × String)) (s' : FieldSuffix)
    (v : String) (s : FieldSuffix) (h : s' ≠ s) :
    firstVal (setFirstPair l s' v) s = firstVal l s := by
  induction l with
  | nil => rfl
  | cons p rest ih =>
      obtain ⟨s0, v0⟩ := p
      by_cases hs : s0 = s'
      · subst hs
        simp only [setFirstPair, reduceIte, firstVal]
        rw [List.find?_cons_of_neg _ (by simp [h]),
          List.find?_cons_of_neg _ (by simp [h])]
      · simp only [setFirstPair, if_neg hs, firstVal]
        by_cases h0 : s0 = s
        · subst h0
          rw [List.find?_cons_of_pos _ (by simp), List.find?_cons_of_pos _ (by simp)]
        · rw [List.find?_cons_of_neg _ (by simp [h0]),
            List.find?_cons_of_neg _ (by simp [h0])]
          exact ih

/-- No entry with suffix `s` means no `camera_{k}_{s}` property. -/
theorem findKey_none_of_suffix_not_mem (m : List ((Nat × FieldSuffix) × String))
    (k : Nat) (s : FieldSuffix) (h : s ∉ m.map (fun kv => kv.1.2)) :
    findKey m (k, s) = none := by
  induction m with
  | nil => rfl
  | cons kv rest ih =>
      rcases kv with ⟨⟨ki, ks⟩, v0⟩
      simp only [List.map_cons, List.mem_cons] at h
      push_neg at h
      have hne : ¬ ((ki, ks) = (k, s)) := by
        intro hh
        injection hh with h1 h2
        exact h.1 h2.symm
      simp only [findKey]
      rw [List.find?_cons_of_neg _ (by simpa using hne)]
      exact ih h.2

/-- No control with suffix `s` means nothing is stored for `s`. -/
theorem lastSet_none_of_not_mem (l : List (FieldSuffix × String)) (s : FieldSuffix)
    (h : s ∉ l.map Prod.fst) : lastSet l s = none := by
  induction l with
  | nil => rfl
  | cons p rest ih =>
      obtain ⟨s0, v0⟩ := p
      simp only [List.map_cons, List.mem_cons] at h
      push_neg at h
      have h0 : ¬ (s0 = s) := fun hh => h.1 hh.symm
      simp [lastSet, ih h.2, h0]

/-- What the DOM shows after populating a fresh card from a stored camera
object whose keys are pairwise distinct and all target the card: a stored
field's value if the key is present, the card's previous (default) value
otherwise. -/
theorem firstVal_popFragment (fields : List ((Nat × FieldSuffix) × String)) :
    ∀ (f : Fragment) (k : Nat) (s : FieldSuffix),
      (fields.map (fun kv => kv.1.2)).Nodup → (∀ kv ∈ fields, kv.1.1 = k) →
      (∀ s', fragmentHas f s' = true) →
      firstVal (popFragment f fields).inputs s =
        match findKey fields (k, s) with
        | some v => some v
        | none => firstVal f.inputs s := by
  induction fields with
  | nil => intro f k s _ _ _; rfl
  | cons kv rest ih =>
      intro f k s hnd hidx hhas
      rcases kv with ⟨⟨ki, ks⟩, v0⟩
      have hki : ki = k := hidx _ (List.mem_cons_self _ _)
      subst hki
      simp only [List.map_cons] at hnd
      have hnd1 : ks ∉ rest.map (fun kv => kv.1.2) := (List.nodup_cons.mp hnd).1
      have hnd2 : (rest.map (fun kv => kv.1.2)).Nodup := (List.nodup_cons.mp hnd).2
      have hidx' : ∀ kv ∈ rest, kv.1.1 = ki := fun kv h => hidx kv (List.mem_cons_of_mem _ h)
      have hhas' : ∀ s', fragmentHas (setFirstInputInFragment f ks v0) s' = true :=
        fun s' => (fragmentHas_set f ks v0 s').trans (hhas s')
      have hstep : popFragment f (((ki, ks), v0) :: rest) =
          popFragment (setFirstInputInFragment f ks v0) rest := by
        simp [popFragment]
      rw [hstep, ih (setFirstInputInFragment f ks v0) ki s hnd2 hidx' hhas']
      by_cases hs : ks = s
      · subst hs
        have hfind : findKey ((((ki, ks), v0)) :: rest) (ki, ks) = some v0 := by
          simp only [findKey]
          rw [List.find?_cons_of_pos _ (by simp)]
          rfl
        rw [hfind, findKey_none_of_suffix_not_mem rest ki ks hnd1]
        simp only [setFirstInputInFragment]
        rw [firstVal_set_same f.inputs ks v0 (hhas ks)]
      · have hfind : findKey ((((ki, ks), v0)) :: rest) (ki, s) = findKey rest (ki, s) := by
          simp only [findKey]
          rw [List.find?_cons_of_neg _ (by simp [hs])]
        rw [hfind]
        rcases hfr : findKey rest (ki, s) with _ | w
        · simp only [setFirstInputInFragment]
          rw [firstVal_set_other f.inputs ks v0 s hs]
        · rfl

/-- For a suffix occurring exactly once among a card's controls, what a save
stores is the single control's value, empty filtered out. -/
theorem lastSet_of_count_one (l : List (FieldSuffix × String)) (s : FieldSuffix)
    (h : (l.map Prod.fst).count s = 1) :
    lastSet l s = match firstVal l s with
      | some v => if v = "" then none else some v
      | none => none := by
  induction l with
  | nil => simp at h
  | cons p rest ih =>
      obtain ⟨s0, v0⟩ := p
      by_cases hs : s0 = s
      · subst hs
        have hcount : (rest.map Prod.fst).count s0 = 0 := by
          have := h
          rw [List.map_cons, List.count_cons] at this
          simpa using this
        have hnot : s0 ∉ rest.map Prod.fst := by
          rwa [← List.count_eq_zero]
        have hnone := lastSet_none_of_not_mem rest s0 hnot
        simp only [lastSet, hnone, firstVal]
        rw [List.find?_cons_of_pos _ (by simp)]
        by_cases hv : v0 = "" <;> simp [hv]
      · have hcount : (rest.map Prod.fst).count s = 1 := by
          have := h
          rw [List.map_cons, List.count_cons] at this
          simpa [hs] using this
        have hrec := ih hcount
        simp only [lastSet, firstVal]
        rw [List.find?_cons_of_neg _ (by simp [hs])]
        rcases hls : lastSet rest s with _ | w
        · rw [hls] at hrec
          simp only [hs, false_and, if_false]
          exact hrec
        · rw [hls] at hrec
          exact hrec

/-- Reading a field back from a serialized card is reading the last
non-empty control value for that suffix. -/
theorem camValue_saveFragment (f : Fragment) (s : FieldSuffix) :
    camValue (saveFragment f) s = lastSet f.inputs s := by
  have h := findKey_saveFields f.inputs f.cid s []
  rcases hls : lastSet f.inputs s with _ | v <;> rw [hls] at h <;> exact h

/-- A freshly rendered card has a control for every template suffix. -/
theorem defaultFragment_has (k : Nat) (s : FieldSuffix) :
    fragmentHas (Fragment.mk k (defaultInputs k)) s = true := by
  cases s <;> rfl

/-- The identity match on an optional value. -/
theorem match_option_id (w : Option String) :
    (match w with | some v => some v | none => none) = w := by
  rcases w <;> rfl

/-- What a full save→load→save round trip stores for one suffix of one
card: the originally stored value when there was one, else the fresh card's
default (filtered for emptiness like any save). -/
theorem camValue_roundtrip (k : Nat) (f : Fragment) (s : FieldSuffix)
    (hfc : f.cid = k)
    (hcount : ((defaultInputs k).map Prod.fst).count s = 1) :
    camValue (saveFragment (popFragment (Fragment.mk k (defaultInputs k))
        (saveFragment f).fields)) s =
      match lastSet f.inputs s with
      | some v => some v
      | none => match firstVal (defaultInputs k) s with
                | some d => if d = "" then none else some d
                | none => none := by
  have hfields : (saveFragment f).fields = saveFields k f.inputs := by
    rw [saveFragment, hfc]
  have hidx : ∀ kv ∈ saveFields k f.inputs, kv.1.1 = k := saveFields_key_idx k f.inputs
  have hnodup : ((saveFields k f.inputs).map (fun kv => kv.1.2)).Nodup :=
    keys_suffix_nodup hidx (saveFields_keys_nodup k f.inputs)
  have hhas : ∀ s', fragmentHas (Fragment.mk k (defaultInputs k)) s' = true :=
    defaultFragment_has k
  have hfk : findKey (saveFields k f.inputs) (k, s) = lastSet f.inputs s := by
    have h := findKey_saveFields f.inputs k s []
    rcases hls : lastSet f.inputs s with _ | v <;> rw [hls] at h <;> exact h
  have hfv := firstVal_popFragment (saveFields k f.inputs)
    (Fragment.mk k (defaultInputs k)) k s hnodup hidx hhas
  have hcnt2 : ((popFragment (Fragment.mk k (defaultInputs k))
      (saveFields k f.inputs)).inputs.map Prod.fst).count s = 1 := by
    rw [popFragment_map_fst]
    exact hcount
  rw [hfields, camValue_saveFragment, lastSet_of_count_one _ _ hcnt2, hfv, hfk]
  rcases hls : lastSet f.inputs s with _ | v
  · rfl
  · have hv : v ≠ "" := lastSet_ne_empty f.inputs s v hls
    simp [hv]

/-- The round trip preserves the `{id, name, mode, mode-specific fields}`
view of one well-formed card. -/
theorem view_roundtrip_fragment (k : Nat) (f : Fragment) (hwf : wfFragment k f) :
    cameraView (saveFragment (popFragment (Fragment.mk k (defaultInputs k))
        (saveFragment f).fields)) = cameraView (saveFragment f) := by
  obtain ⟨nm, md, idv, u1, u2, u3, ai, he, ha, hi, ai2, hcid, hinputs, hnm, hmd, hha⟩ := hwf
  have hcnt : ∀ s : FieldSuffix, s ≠ .analysis_interval →
      ((defaultInputs k).map Prod.fst).count s = 1 := by
    intro s hs
    cases s <;> first | rfl | exact absurd rfl hs
  have hmdne : md ≠ "" := by
    rcases hmd with h | h <;> (rw [h]; decide)
  have hlsname : lastSet f.inputs .name = some nm := by
    rw [hinputs]; simp [lastSet, hnm]
  have hlsmode : lastSet f.inputs .mode = some md := by
    rw [hinputs]; simp [lastSet, hmdne]
  have hroundtrip := fun s hs => camValue_roundtrip k f s hcid (hcnt s hs)
  have hname2 : camValue (saveFragment (popFragment (Fragment.mk k (defaultInputs k))
      (saveFragment f).fields)) .name = some nm := by
    rw [hroundtrip .name (by simp), hlsname]
  have hmode2 : camValue (saveFragment (popFragment (Fragment.mk k (defaultInputs k))
      (saveFragment f).fields)) .mode = some md := by
    rw [hroundtrip .mode (by simp), hlsmode]
  have hstd : ∀ s : FieldSuffix, s ≠ .analysis_interval →
      firstVal (defaultInputs k) s = some "" →
      camValue (saveFragment (popFragment (Fragment.mk k (defaultInputs k))
        (saveFragment f).fields)) s = camValue (saveFragment f) s := by
    intro s hs hdef
    rw [hroundtrip s hs, hdef, camValue_saveFragment]
    rcases hls : lastSet f.inputs s with _ | v <;> simp
  have hurl := hstd .rtsp_url (by simp) rfl
  have huser := hstd .rtsp_username (by simp) rfl
  have hpass := hstd .rtsp_password (by simp) rfl
  have hentity := hstd .ha_entity (by simp) rfl
  have hname1 : camValue (saveFragment f) .name = some nm := by
    rw [camValue_saveFragment, hlsname]
  have hmode1 : camValue (saveFragment f) .mode = some md := by
    rw [camValue_saveFragment, hlsmode]
  have hid2 : (saveFragment (popFragment (Fragment.mk k (defaultInputs k))
      (saveFragment f).fields)).id = k := by
    rw [saveFragment, popFragment_cid]
  have hid1 : (saveFragment f).id = k := hcid
  rcases hmd with hmd | hmd
  · subst hmd
    simp [cameraView, hmode1, hmode2, hurl, huser, hpass, hid1, hid2, hname1, hname2]
  · subst hmd
    have hane : ha ≠ "" := (hha rfl).1
    have hine : hi ≠ "" := (hha rfl).2
    have hlsha : lastSet f.inputs .ha_attr = some ha := by
      rw [hinputs]; simp [lastSet, hane]
    have hlshi : lastSet f.inputs .ha_interval = some hi := by
      rw [hinputs]; simp [lastSet, hine]
    have hha2 : camValue (saveFragment (popFragment (Fragment.mk k (defaultInputs k))
        (saveFragment f).fields)) .ha_attr = some ha := by
      rw [hroundtrip .ha_attr (by simp), hlsha]
    have hhi2 : camValue (saveFragment (popFragment (Fragment.mk k (defaultInputs k))
        (saveFragment f).fields)) .ha_interval = some hi := by
      rw [hroundtrip .ha_interval (by simp), hlshi]
    have hha1 : camValue (saveFragment f) .ha_attr = some ha := by
      rw [camValue_saveFragment, hlsha]
    have hhi1 : camValue (saveFragment f) .ha_interval = some hi := by
      rw [camValue_saveFragment, hlshi]
    simp [cameraView, hmode1, hmode2, hentity, hha1, hha2, hhi1, hhi2, hid1, hid2,
      hname1, hname2]

/-- Loading a canonically-numbered well-formed stored list on top of an
already canonically-numbered container appends, card by card, the populated
round-tripped cards: each `addCameraConfig` generates exactly the stored
id again, and `populateCameraFields` only touches the fresh card. -/
theorem load_builds (c : List Fragment) :
    ∀ (n : Nat) (acc : List Fragment), wfList n c →
      acc.map Fragment.cid = List.range' 1 n →
      (saveCamerasConfiguration ((saveCamerasConfiguration c).foldl
          (fun c cam => populateCameraFields (addCameraConfig c) cam) acc)).map cameraView =
        (saveCamerasConfiguration acc).map cameraView ++
          (saveCamerasConfiguration c).map cameraView := by
  induction c with
  | nil => intro n acc _ _; simp [saveCamerasConfiguration]
  | cons f rest ih =>
      intro n acc hwf hacc
      obtain ⟨hwff, hwfr⟩ := hwf
      have hcid : f.cid = n + 1 := by
        obtain ⟨_, _, _, _, _, _, _, _, _, _, _, hc, _⟩ := hwff
        exact hc
      have hlen : acc.length = n := by
        have h := congrArg List.length hacc
        simpa using h
      have hcids : ∀ g ∈ acc, g.cid ≠ n + 1 := by
        intro g hg hEq
        have hm : g.cid ∈ acc.map Fragment.cid := List.mem_map_of_mem _ hg
        rw [hacc, hEq] at hm
        have := (List.mem_range'_1.mp hm).2
        omega
      have hnocol : acc.any (fun g => g.cid == acc.length + 1) = false := by
        rw [List.any_eq_false]
        intro g hg
        simp only [hlen, beq_iff_eq]
        exact hcids g hg
      have hadd : addCameraConfig acc =
          acc ++ [Fragment.mk (n + 1) (defaultInputs (n + 1))] := by
        rw [hlen] at hnocol
        simp only [addCameraConfig, hlen, hnocol, Bool.false_eq_true, if_false]
      have hidx : ∀ kv ∈ (saveFragment f).fields, kv.1.1 = n + 1 := by
        have h : (saveFragment f).fields = saveFields (n + 1) f.inputs := by
          rw [saveFragment, hcid]
        rw [h]
        exact saveFields_key_idx (n + 1) f.inputs
      have hpop : populateCameraFields
          (acc ++ [Fragment.mk (n + 1) (defaultInputs (n + 1))]) (saveFragment f) =
          acc ++ [popFragment (Fragment.mk (n + 1) (defaultInputs (n + 1)))
            (saveFragment f).fields] :=
        populate_append (saveFragment f).fields acc _ (n + 1) hcids rfl
          (defaultFragment_has (n + 1)) hidx
      have hacc' : (acc ++ [popFragment (Fragment.mk (n + 1) (defaultInputs (n + 1)))
          (saveFragment f).fields]).map Fragment.cid = List.range' 1 (n + 1) := by
        rw [List.map_append, hacc]
        have hc : (popFragment (Fragment.mk (n + 1) (defaultInputs (n + 1)))
            (saveFragment f).fields).cid = n + 1 := popFragment_cid _ _
        simp only [List.map_cons, List.map_nil, hc]
        rw [@List.range'_concat 1 1 n]
        congr 2
        omega
      have hview : cameraView (saveFragment (popFragment
          (Fragment.mk (n + 1) (defaultInputs (n + 1))) (saveFragment f).fields)) =
          cameraView (saveFragment f) :=
        view_roundtrip_fragment (n + 1) f hwff
      have hfold : (saveCamerasConfiguration (f :: rest)).foldl
          (fun c cam => populateCameraFields (addCameraConfig c) cam) acc =
          (saveCamerasConfiguration rest).foldl
            (fun c cam => populateCameraFields (addCameraConfig c) cam)
            (acc ++ [popFragment (Fragment.mk (n + 1) (defaultInputs (n + 1)))
              (saveFragment f).fields]) := by
        simp only [saveCamerasConfiguration, List.map_cons, List.foldl_cons]
        rw [hadd, hpop]
      rw [hfold, ih (n + 1) _ hwfr hacc']
      simp only [saveCamerasConfiguration, List.map_append, List.map_cons, List.map_nil,
        hview]
      rw [List.append_assoc]
      rfl

/-- C2 amended: the save→load round trip reproduces the
`{id, name, mode, mode-specific fields}` set of every camera descriptor
PROVIDED the container is well formed with the canonical id sequence
`camera_1 … camera_n` (no removal gaps): ids, names, modes and the
mode-specific field sets all survive the reload.  (Without canonical ids
the loader regenerates different ids and drops all values — see the
counterexample.) -/
theorem C2_camera_roundtrip (c : List Fragment) (hwf : wfList 0 c) :
    (saveCamerasConfiguration (loadCamerasConfiguration
        (some (saveCamerasConfiguration c)))).map cameraView =
      (saveCamerasConfiguration c).map cameraView := by
  have h := load_builds c 0 [] hwf rfl
  simpa [loadCamerasConfiguration, saveCamerasConfiguration] using h

/-- A concrete well-formed container: one freshly added camera card. -/
theorem wfList_demo : wfList 0 (addCameraConfig []) :=
  ⟨⟨"Caméra " ++ toString 1, "rtsp", "camera_" ++ toString 1, "", "", "", "2.0", "",
      "entity_picture", "1.0", "2.0", rfl, rfl, by decide, Or.inl rfl,
      fun h => absurd h (by decide)⟩,
    trivial⟩

/-- Witness for C2's amended theorem at the one-card container. -/
theorem C2_camera_roundtrip_witness :
    wfList 0 (addCameraConfig []) ∧
    (saveCamerasConfiguration (loadCamerasConfiguration
        (some (saveCamerasConfiguration (addCameraConfig []))))).map cameraView =
      (saveCamerasConfiguration (addCameraConfig [])).map cameraView :=
  ⟨wfList_demo, C2_camera_roundtrip _ wfList_demo⟩

end IAction
